import Mathlib

/-!
Shallow embedding of the trading-bot state layer of this repository:
`bot_state.py` (the `BotStateWriter` class) and `reconcile_state.py`
(the `StateReconciler` class).

JSON documents are modelled as association lists of string keys and JSON
values (Python dicts are insertion ordered with unique keys; uniqueness is
carried as a hypothesis where a proof needs it).  Python floats are
modelled as rationals, and wall-clock timestamps are opaque strings that
the caller passes in (`datetime.now(...).isoformat()` becomes a `now`
parameter).
-/

/-- A JSON value as produced by `json.loads` / consumed by `json.dumps`. -/
inductive JValue where
  | null : JValue
  | bool (b : Bool) : JValue
  | num (q : ℚ) : JValue
  | str (s : String) : JValue
  | arr (elems : List JValue) : JValue
  | obj (fields : List (String × JValue)) : JValue

/-- A JSON object / Python dict: an insertion-ordered association list. -/
abbrev StateDoc := List (String × JValue)

/-- First-match lookup: Python `d[k]` / `k in d` on a dict with unique keys. -/
def lookupA {α : Type} : List (String × α) → String → Option α
  | [], _ => none
  | (k, v) :: rest, key => if k = key then some v else lookupA rest key

/-- Python `d[k] = v`: overwrite the existing entry in place, else append. -/
def setKey {α : Type} : List (String × α) → String → α → List (String × α)
  | [], key, val => [(key, val)]
  | (k, v) :: rest, key, val =>
    if k = key then (key, val) :: rest else (k, v) :: setKey rest key val

/-- Python `d.update(u)`: apply the entries of `u` in order, overwriting. -/
def dictUpdate {α : Type} (d u : List (String × α)) : List (String × α) :=
  u.foldl (fun acc kv => setKey acc kv.1 kv.2) d

/-- Python `d.get(k, dflt)`. -/
def pyGet (d : StateDoc) (k : String) (dflt : JValue) : JValue :=
  (lookupA d k).getD dflt

theorem lookupA_setKey_self {α : Type} (d : List (String × α)) (k : String) (v : α) :
    lookupA (setKey d k v) k = some v := by
  induction d with
  | nil => simp [setKey, lookupA]
  | cons hd tl ih =>
    obtain ⟨a, b⟩ := hd
    by_cases h : a = k <;> simp [setKey, lookupA, h, ih]

theorem lookupA_setKey_ne {α : Type} (d : List (String × α)) (k k' : String) (v : α)
    (h : k ≠ k') : lookupA (setKey d k v) k' = lookupA d k' := by
  induction d with
  | nil => simp [setKey, lookupA, h]
  | cons hd tl ih =>
    obtain ⟨a, b⟩ := hd
    by_cases ha : a = k
    · subst ha
      simp [setKey, lookupA, h]
    · by_cases hb : a = k' <;> simp [setKey, lookupA, ha, hb, Ne.symm h, ih]

theorem lookupA_isSome_of_mem {α : Type} {l : List (String × α)} {k : String} {v : α}
    (h : (k, v) ∈ l) : (lookupA l k).isSome = true := by
  induction l with
  | nil => simp at h
  | cons hd tl ih =>
    obtain ⟨a, b⟩ := hd
    rcases List.mem_cons.mp h with h1 | h2
    · obtain ⟨rfl, rfl⟩ := Prod.mk.injEq .. ▸ h1
      simp [lookupA]
    · by_cases ha : a = k <;> simp [lookupA, ha, ih h2]

theorem mem_of_lookupA_some {α : Type} {l : List (String × α)} {k : String} {v : α}
    (h : lookupA l k = some v) : (k, v) ∈ l := by
  induction l with
  | nil => simp [lookupA] at h
  | cons hd tl ih =>
    obtain ⟨a, b⟩ := hd
    by_cases ha : a = k
    · subst ha
      simp [lookupA] at h
      simp [h]
    · simp [lookupA, ha] at h
      exact List.mem_cons_of_mem _ (ih h)

theorem lookupA_eq_none_of_not_mem_keys {α : Type} {l : List (String × α)} {k : String}
    (h : k ∉ l.map Prod.fst) : lookupA l k = none := by
  induction l with
  | nil => simp [lookupA]
  | cons hd tl ih =>
    obtain ⟨a, b⟩ := hd
    rw [List.map_cons, List.mem_cons] at h
    push_neg at h
    rw [lookupA, if_neg (fun hh => h.1 hh.symm)]
    exact ih h.2

theorem not_mem_keys_of_lookupA_none {α : Type} {l : List (String × α)} {k : String}
    (h : lookupA l k = none) : k ∉ l.map Prod.fst := by
  induction l with
  | nil => simp
  | cons hd tl ih =>
    obtain ⟨a, b⟩ := hd
    by_cases ha : a = k
    · subst ha
      simp [lookupA] at h
    · simp only [lookupA, if_neg ha] at h
      rw [List.map_cons, List.mem_cons]
      push_neg
      exact ⟨fun hh => ha hh.symm, ih h⟩

theorem lookupA_dictUpdate_of_none {α : Type} {u : List (String × α)} {k : String}
    (h : lookupA u k = none) (d : List (String × α)) :
    lookupA (dictUpdate d u) k = lookupA d k := by
  induction u generalizing d with
  | nil => rfl
  | cons hd tl ih =>
    obtain ⟨a, b⟩ := hd
    by_cases ha : a = k
    · simp [lookupA, ha] at h
    · simp only [lookupA, if_neg ha] at h
      show lookupA (dictUpdate (setKey d a b) tl) k = lookupA d k
      rw [ih h, lookupA_setKey_ne _ _ _ _ ha]

theorem lookupA_dictUpdate_of_some {α : Type} {u : List (String × α)} {k : String} {v : α}
    (hnd : (u.map Prod.fst).Nodup) (h : lookupA u k = some v) (d : List (String × α)) :
    lookupA (dictUpdate d u) k = some v := by
  induction u generalizing d with
  | nil => simp [lookupA] at h
  | cons hd tl ih =>
    obtain ⟨a, b⟩ := hd
    rw [List.map_cons, List.nodup_cons] at hnd
    by_cases ha : a = k
    · subst ha
      have hb : b = v := by simpa [lookupA] using h
      subst hb
      show lookupA (dictUpdate (setKey d a b) tl) a = some b
      rw [lookupA_dictUpdate_of_none (lookupA_eq_none_of_not_mem_keys hnd.1) _,
        lookupA_setKey_self]
    · simp only [lookupA, if_neg ha] at h
      exact ih hnd.2 h (setKey d a b)

/-! ## `bot_state.py` — the `BotStateWriter` class -/

/-- The `color_map.get(status, "yellow")` lookup of `BotStateWriter.update`
for a string status. -/
def color_map_get (status : String) : String :=
  if status = "running" then "green"
  else if status = "active" then "green"
  else if status = "initializing" then "yellow"
  else if status = "paused" then "yellow"
  else if status = "stopped" then "red"
  else if status = "error" then "red"
  else if status = "offline" then "gray"
  else "yellow"

/-- `color_map.get(status, "yellow")` on an arbitrary JSON value: a string uses
the fixed mapping; any other hashable value (null/bool/number) misses the dict
and takes the `"yellow"` default; an unhashable value (JSON array/object) makes
the Python dict lookup raise `TypeError`, modelled as `none`. -/
def statusColorOf : JValue → Option String
  | .str s => some (color_map_get s)
  | .obj _ => none
  | .arr _ => none
  | _ => some "yellow"

/-- Python `bot_name or bot_id` in `BotStateWriter.__init__` (an absent or
empty name falls back to the bot id). -/
def resolveBotName (botId : String) (botName : Option String) : String :=
  match botName with
  | none => botId
  | some s => if s = "" then botId else s

/-- `BotStateWriter._default_state` (with the bot name already resolved). -/
def default_state (botId botName : String) : StateDoc :=
  [("bot_id", .str botId),
   ("bot_name", .str botName),
   ("status", .str "initializing"),
   ("status_color", .str "yellow"),
   ("pnl_total", .num 0),
   ("pnl_24h", .num 0),
   ("trades_total", .num 0),
   ("trades_24h", .num 0),
   ("position", .null),
   ("last_update", .null),
   ("last_error", .null),
   ("uptime_seconds", .num 0),
   ("version", .str "1.0.0")]

/-- The document-level effect of `BotStateWriter._write`: stamp `last_update`
with the current UTC instant before persisting.  (The temp-file/rename step of
`_write` is modelled separately, see `write_states`.) -/
def write_stamp (d : StateDoc) (now : String) : StateDoc :=
  setKey d "last_update" (.str now)

/-- The current record at the start of `BotStateWriter.update`:
`_default_state.copy()` updated with the parsed file when the file exists. -/
def base_doc (botId botName : String) (file : Option StateDoc) : StateDoc :=
  match file with
  | some f => dictUpdate (default_state botId botName) f
  | none => default_state botId botName

/-- `BotStateWriter.update(updates)` as a function of the parsed on-disk file
(`none` = file absent): merge, recompute `status_color` from the merged
`status` (default key `"unknown"`), stamp `last_update`, and return the full
document, which is also what gets persisted.  Returns `none` exactly when the
Python code raises (unhashable `status` value in `color_map.get`). -/
def update (botId botName : String) (file : Option StateDoc) (updates : StateDoc)
    (now : String) : Option StateDoc :=
  let current := dictUpdate (base_doc botId botName file) updates
  match statusColorOf (pyGet current "status" (.str "unknown")) with
  | some c => some (write_stamp (setKey current "status_color" (.str c)) now)
  | none => none

/-- `BotStateWriter.set_running(extra_fields)`. -/
def set_running (botId botName : String) (file : Option StateDoc)
    (extra : Option StateDoc) (now : String) : Option StateDoc :=
  update botId botName file (dictUpdate [("status", .str "running")] (extra.getD [])) now

/-- `BotStateWriter.set_error(error_message)`. -/
def set_error (botId botName : String) (file : Option StateDoc) (msg : String)
    (now : String) : Option StateDoc :=
  update botId botName file [("status", .str "error"), ("last_error", .str msg)] now

/-- `BotStateWriter.set_paused()`. -/
def set_paused (botId botName : String) (file : Option StateDoc) (now : String) :
    Option StateDoc :=
  update botId botName file [("status", .str "paused")] now

/-- `BotStateWriter.set_stopped()`. -/
def set_stopped (botId botName : String) (file : Option StateDoc) (now : String) :
    Option StateDoc :=
  update botId botName file [("status", .str "stopped")] now

/-- `BotStateWriter.update_position(side, size, entry_price)`:
build the nested `position` record (or `null` when `side is None`) and
delegate to `update`. -/
def update_position (botId botName : String) (file : Option StateDoc)
    (side : Option String) (size : ℚ) (entry_price : Option ℚ) (now : String) :
    Option StateDoc :=
  let position : JValue :=
    match side with
    | none => .null
    | some sd =>
      .obj [("side", .str sd), ("size", .num size),
            ("entry_price", match entry_price with | none => .null | some q => .num q),
            ("opened_at", .str now)]
  update botId botName file [("position", position)] now

/-- Python `current.get(k, 0) + x` operand: a number is itself, a bool is an
int (0/1), an absent key is the default 0, and any other value makes the
addition raise `TypeError`, modelled as `none`. -/
def pyGetNum (d : StateDoc) (k : String) : Option ℚ :=
  match lookupA d k with
  | none => some 0
  | some (.num q) => some q
  | some (.bool b) => some (if b then 1 else 0)
  | some _ => none

/-- `BotStateWriter.record_trade(pnl, side)` as a function of the parsed
on-disk file: read-modify-write relative to the current document (the default
record when the file is absent), incrementing the trade counters, accumulating
the pnl fields, setting `last_trade`, and stamping `last_update` via `_write`.
`none` models the `TypeError` raised when a counter field holds a non-numeric
value (in which case nothing is written). -/
def record_trade (botId botName : String) (file : Option StateDoc) (pnl : ℚ)
    (side : String) (now : String) : Option StateDoc :=
  let current := file.getD (default_state botId botName)
  match pyGetNum current "trades_total", pyGetNum current "trades_24h",
        pyGetNum current "pnl_total", pyGetNum current "pnl_24h" with
  | some t, some t24, some p, some p24 =>
    let c := setKey current "trades_total" (.num (t + 1))
    let c := setKey c "trades_24h" (.num (t24 + 1))
    let c := setKey c "pnl_total" (.num (p + pnl))
    let c := setKey c "pnl_24h" (.num (p24 + pnl))
    let c := setKey c "last_trade"
      (.obj [("time", .str now), ("pnl", .num pnl), ("side", .str side)])
    some (write_stamp c now)
  | _, _, _, _ => none

/-- `BotStateWriter.__init__`: when the state file does not exist, `_write` the
default record (which stamps `last_update`); an existing file is left as is. -/
def bot_init (botId : String) (botName : Option String) (file : Option StateDoc)
    (now : String) : StateDoc :=
  match file with
  | some f => f
  | none => write_stamp (default_state botId (resolveBotName botId botName)) now

/-! ## `reconcile_state.py` — the `StateReconciler` class -/

/-- `pat.isPrefixOf s` on character lists. -/
def isPrefixL : List Char → List Char → Bool
  | [], _ => true
  | _ :: _, [] => false
  | a :: as, b :: bs => a = b && isPrefixL as bs

/-- Python `pat in s` (substring containment) on character lists. -/
def isSubL (pat : List Char) : List Char → Bool
  | [] => pat.isEmpty
  | c :: rest => isPrefixL pat (c :: rest) || isSubL pat rest

/-- Python `pat in s` for strings. -/
def strContains (s pat : String) : Bool :=
  isSubL pat.toList s.toList

/-- Python `s.lower()` (command lines are ASCII, where `str.lower` is the
per-character ASCII lowering). -/
def pyLower (s : String) : String :=
  ⟨s.toList.map Char.toLower⟩

/-- `StateReconciler._extract_bot_id(cmdline)`, translated branch for branch.
Note the `if/elif` chain: when the `bot_v1`-or-`python`-with-`long/short`
guard matches but no asset sub-pattern does, the function returns `None`
without evaluating the later `hummingbot` rule. -/
def extract_bot_id (cmdline : String) : Option String :=
  let low := pyLower cmdline
  if strContains cmdline "mm_optimized_15m" then some "mm_15m"
  else if strContains cmdline "mm_optimized_1h" then some "mm_1h"
  else if strContains cmdline "bot_v1"
      || (strContains low "python" && (strContains low "long" || strContains low "short")) then
    if strContains low "btc" then
      if strContains low "long" then some "btc_long_v1"
      else if strContains low "short" then some "btc_short_v1"
      else none
    else if strContains low "doge" then
      if strContains low "long" then some "doge_long_v1"
      else if strContains low "short" then some "doge_short_v1"
      else none
    else none
  else if strContains low "hummingbot" then some "hummingbot"
  else none

/-- One step of Python `str.title()` for ASCII text: a cased character is
uppercased after a non-cased character and lowercased otherwise.  The Bool
argument records whether the previous character was cased. -/
def titleGo : Bool → List Char → List Char
  | _, [] => []
  | prevCased, c :: rest =>
    if c.isAlpha then
      (if prevCased then c.toLower else c.toUpper) :: titleGo true rest
    else
      c :: titleGo false rest

/-- `bot_id.replace('_', ' ').title()` from `_create_state_file`. -/
def title_name (botId : String) : String :=
  ⟨titleGo false (botId.toList.map (fun c => if c = '_' then ' ' else c))⟩

/-- A `ProcessObservation` value of `get_process_states` (the `running: True`
field is constant and the claims never consult it). -/
structure ProcObs where
  pid : Option Int
  started_at : Option String
  cmdline : String

/-- The per-file summary built by `get_file_states`.  The JSON-level `status`
is kept as a JSON value (`data.get('status', 'unknown')`); the file-mtime
field is wall-clock metadata never consulted by `reconcile` and is omitted. -/
structure FileSummary where
  status : JValue
  last_update : JValue

/-- One entry of `report['mismatches']`: the bot id, the issue kind, and the
attached `process` / `file_state` payload. -/
structure Mismatch where
  bot_id : String
  issue : String
  procState : Option ProcObs
  fileState : Option FileSummary

/-- The reconciliation report (the `timestamp` field is wall-clock metadata
never consulted by the claims and is omitted). -/
structure Report where
  processes_found : Nat
  state_files_found : Nat
  mismatches : List Mismatch
  fixed : List String
  healthy : Bool

/-- The state directory on disk, keyed by file stem (= bot id):
`some doc` is a file parsing to the JSON object `doc`, `none` is a file that
exists but does not parse. A bot id absent from the list has no file. -/
abbrev Disk := List (String × Option StateDoc)

/-- `file_state['status'] in ['running', 'active']`. -/
def is_running_status : JValue → Bool
  | .str s => s = "running" || s = "active"
  | _ => false

/-- The document written by `StateReconciler._create_state_file`. -/
def create_state (botId : String) (p : ProcObs) (now : String) : StateDoc :=
  [("bot_id", .str botId),
   ("bot_name", .str (title_name botId)),
   ("status", .str "running"),
   ("status_color", .str "green"),
   ("pid", match p.pid with | none => .null | some n => .num n),
   ("started_at", match p.started_at with | none => .null | some s => .str s),
   ("last_update", .str now),
   ("reconciled", .bool true)]

/-- The rewritten document of `StateReconciler._update_state_to_stopped`. -/
def stopped_doc (st : StateDoc) (now : String) : StateDoc :=
  setKey (setKey (setKey (setKey st "status" (.str "stopped"))
    "status_color" (.str "red")) "last_update" (.str now)) "reconciled" (.bool true)

/-- `StateReconciler._update_state_to_stopped(bot_id)` acting on the state
directory: rewrite the file when it exists and parses, silently pass
otherwise. -/
def update_state_to_stopped (disk : Disk) (botId : String) (now : String) : Disk :=
  match lookupA disk botId with
  | some (some st) => setKey disk botId (some (stopped_doc st now))
  | _ => disk

/-- The first loop of `StateReconciler.reconcile` (running processes without a
state file), returning the mismatches and fixed ids it appends, in iteration
order, and the resulting state directory. -/
def proc_loop (autoFix : Bool) (fileMap : List (String × FileSummary)) (now : String) :
    List (String × ProcObs) → Disk → List Mismatch × List String × Disk
  | [], disk => ([], [], disk)
  | (botId, p) :: rest, disk =>
    if (lookupA fileMap botId).isSome then proc_loop autoFix fileMap now rest disk
    else
      let disk' := if autoFix then setKey disk botId (some (create_state botId p now)) else disk
      let out := proc_loop autoFix fileMap now rest disk'
      (⟨botId, "running_but_no_state_file", some p, none⟩ :: out.1,
       (if autoFix then botId :: out.2.1 else out.2.1), out.2.2)

/-- The second loop of `StateReconciler.reconcile` (state files claiming to
run without a matching process). -/
def file_loop (autoFix : Bool) (procMap : List (String × ProcObs)) (now : String) :
    List (String × FileSummary) → Disk → List Mismatch × List String × Disk
  | [], disk => ([], [], disk)
  | (botId, f) :: rest, disk =>
    if (lookupA procMap botId).isSome then file_loop autoFix procMap now rest disk
    else if is_running_status f.status then
      let disk' := if autoFix then update_state_to_stopped disk botId now else disk
      let out := file_loop autoFix procMap now rest disk'
      (⟨botId, "state_says_running_but_process_missing", none, some f⟩ :: out.1,
       (if autoFix then botId :: out.2.1 else out.2.1), out.2.2)
    else file_loop autoFix procMap now rest disk

/-- `StateReconciler.reconcile()` as a function of the observed process map,
the scanned file map, and the state directory: both loops in order, then the
assembled report.  The code starts `healthy = True` and sets it to `False`
exactly when it appends a mismatch, so the final flag is the emptiness of the
mismatch list. -/
def reconcile (autoFix : Bool) (procMap : List (String × ProcObs))
    (fileMap : List (String × FileSummary)) (disk : Disk) (now : String) :
    Report × Disk :=
  let out1 := proc_loop autoFix fileMap now procMap disk
  let out2 := file_loop autoFix procMap now fileMap out1.2.2
  ({ processes_found := procMap.length,
     state_files_found := fileMap.length,
     mismatches := out1.1 ++ out2.1,
     fixed := out1.2.1 ++ out2.2.1,
     healthy := (out1.1 ++ out2.1).isEmpty }, out2.2.2)

/-! ## The atomic-rename persistence step of `BotStateWriter._write` -/

/-- The two files `_write` touches, as byte (character) sequences:
the target path `state/{bot_id}.json` and the temporary path
`state/{bot_id}.tmp` in the same directory. -/
structure FSView where
  target : Option (List Char)
  temp : Option (List Char)
deriving DecidableEq

/-- The sequence of filesystem states a concurrent reader can observe during
`_write` persisting the serialized document `c`: `temp_file.write_text` is not
atomic, so the temporary file passes through every partial prefix of `c`,
and then `temp_file.replace(self.state_file)` atomically installs `c` at the
target path and removes the temporary path. -/
def write_states (fs0 : FSView) (c : List Char) : List FSView :=
  fs0 :: ((List.range (c.length + 1)).map
    (fun k => { target := fs0.target, temp := some (c.take k) }))
  ++ [{ target := some c, temp := none }]

/-! ## Claims about initialization and the reconciler-created file -/

/-- C9: constructing a `BotStateWriter` for a bot id whose state file does not
exist immediately creates the state file containing the default record —
status `"initializing"`, status_color `"yellow"`, zeroed pnl and trade
counters, null position and last_error — with `last_update` stamped at
construction time, before any `update` call is made. -/
theorem bot_init_creates_default_file (botId : String) (botName : Option String)
    (now : String) :
    bot_init botId botName none now
      = write_stamp (default_state botId (resolveBotName botId botName)) now
    ∧ lookupA (bot_init botId botName none now) "status" = some (.str "initializing")
    ∧ lookupA (bot_init botId botName none now) "status_color" = some (.str "yellow")
    ∧ lookupA (bot_init botId botName none now) "pnl_total" = some (.num 0)
    ∧ lookupA (bot_init botId botName none now) "pnl_24h" = some (.num 0)
    ∧ lookupA (bot_init botId botName none now) "trades_total" = some (.num 0)
    ∧ lookupA (bot_init botId botName none now) "trades_24h" = some (.num 0)
    ∧ lookupA (bot_init botId botName none now) "position" = some .null
    ∧ lookupA (bot_init botId botName none now) "last_error" = some .null
    ∧ lookupA (bot_init botId botName none now) "last_update" = some (.str now)
    ∧ lookupA (bot_init botId botName none now) "uptime_seconds" = some (.num 0)
    ∧ lookupA (bot_init botId botName none now) "version" = some (.str "1.0.0") :=
  ⟨rfl, rfl, rfl, rfl, rfl, rfl, rfl, rfl, rfl, rfl, rfl, rfl⟩

/-- C10: a state file synthesized by the reconciler auto-fix for a running
process without a state file contains exactly the fields `bot_id`, `bot_name`,
`status`, `status_color`, `pid`, `started_at`, `last_update`, `reconciled` —
in particular none of the `BotState` counters, nor `position`, `last_error`,
`uptime_seconds`, `version`. -/
theorem create_state_file_fields (botId : String) (p : ProcObs) (now : String) :
    (create_state botId p now).map Prod.fst
      = ["bot_id", "bot_name", "status", "status_color", "pid", "started_at",
         "last_update", "reconciled"]
    ∧ lookupA (create_state botId p now) "pnl_total" = none
    ∧ lookupA (create_state botId p now) "pnl_24h" = none
    ∧ lookupA (create_state botId p now) "trades_total" = none
    ∧ lookupA (create_state botId p now) "trades_24h" = none
    ∧ lookupA (create_state botId p now) "position" = none
    ∧ lookupA (create_state botId p now) "last_error" = none
    ∧ lookupA (create_state botId p now) "uptime_seconds" = none
    ∧ lookupA (create_state botId p now) "version" = none :=
  ⟨rfl, rfl, rfl, rfl, rfl, rfl, rfl, rfl, rfl⟩

/-! ## Claim about the atomic persistence step -/

/-- C7: every persist by the state writer writes the full document to a
temporary path in the same directory and then atomically replaces the target
path: over the whole observable trace of `_write`, the target path holds
either the complete previous document or the complete new one (never a
partial write), it still holds the previous document at every step before the
final rename, and the final state holds the new document with the temporary
file gone. -/
theorem write_target_always_whole (fs0 : FSView) (c : List Char) :
    (∀ s ∈ write_states fs0 c, s.target = fs0.target ∨ s.target = some c)
    ∧ (∀ s ∈ (write_states fs0 c).dropLast, s.target = fs0.target)
    ∧ (write_states fs0 c).getLast? = some { target := some c, temp := none } := by
  have hform : write_states fs0 c
      = (fs0 :: ((List.range (c.length + 1)).map
          (fun k => { target := fs0.target, temp := some (c.take k) }))) ++
        [{ target := some c, temp := none }] := by
    simp [write_states]
  refine ⟨?_, ?_, ?_⟩
  · intro s hs
    rw [hform] at hs
    rcases List.mem_append.mp hs with h | h
    · left
      rcases List.mem_cons.mp h with h1 | h1
      · rw [h1]
      · obtain ⟨k, _, hk⟩ := List.mem_map.mp h1
        rw [← hk]
    · right
      rw [List.mem_singleton.mp h]
  · intro s hs
    rw [hform, List.dropLast_concat] at hs
    rcases List.mem_cons.mp hs with h1 | h1
    · rw [h1]
    · obtain ⟨k, _, hk⟩ := List.mem_map.mp h1
      rw [← hk]
  · rw [hform, List.getLast?_concat]

/-! ## Claim about process classification -/

/-- C8 counterexample: the command line `"python long hummingbot"` contains
`hummingbot`, matches none of the earlier id-producing patterns (no
`mm_optimized_15m`, no `mm_optimized_1h`, no `bot_v1`, no `btc`, no `doge`),
yet the classifier drops it instead of returning `hummingbot`: the matched
python-with-long/short guard swallows the command line. -/
theorem extract_bot_id_blocked_hummingbot :
    extract_bot_id "python long hummingbot" = none
    ∧ strContains (pyLower "python long hummingbot") "hummingbot" = true
    ∧ strContains "python long hummingbot" "mm_optimized_15m" = false
    ∧ strContains "python long hummingbot" "mm_optimized_1h" = false
    ∧ strContains "python long hummingbot" "bot_v1" = false
    ∧ strContains (pyLower "python long hummingbot") "btc" = false
    ∧ strContains (pyLower "python long hummingbot") "doge" = false := by
  refine ⟨?_, ?_, ?_, ?_, ?_, ?_, ?_⟩ <;> decide

/-- C8 (amended): classification evaluates the branch guards in order and the
first matching guard decides the outcome.  The two market-maker guards return
their fixed ids; the `bot_v1`-or-`python`-with-`long/short` guard returns an
asset-and-direction id when a `btc`/`doge` sub-pattern matches and otherwise
drops the command line without consulting the later `hummingbot` rule; a
command line reaching the `hummingbot` guard classifies as `hummingbot`; a
command line matching no guard is dropped. -/
theorem extract_bot_id_first_guard_wins (s : String) :
    (strContains s "mm_optimized_15m" = true → extract_bot_id s = some "mm_15m")
    ∧ (strContains s "mm_optimized_15m" = false →
        strContains s "mm_optimized_1h" = true → extract_bot_id s = some "mm_1h")
    ∧ (strContains s "mm_optimized_15m" = false →
        strContains s "mm_optimized_1h" = false →
        (strContains s "bot_v1"
          || (strContains (pyLower s) "python"
              && (strContains (pyLower s) "long" || strContains (pyLower s) "short"))) = true →
        ((strContains (pyLower s) "btc" = true → strContains (pyLower s) "long" = true →
            extract_bot_id s = some "btc_long_v1")
        ∧ (strContains (pyLower s) "btc" = true → strContains (pyLower s) "long" = false →
            strContains (pyLower s) "short" = true → extract_bot_id s = some "btc_short_v1")
        ∧ (strContains (pyLower s) "btc" = true → strContains (pyLower s) "long" = false →
            strContains (pyLower s) "short" = false → extract_bot_id s = none)
        ∧ (strContains (pyLower s) "btc" = false → strContains (pyLower s) "doge" = true →
            strContains (pyLower s) "long" = true → extract_bot_id s = some "doge_long_v1")
        ∧ (strContains (pyLower s) "btc" = false → strContains (pyLower s) "doge" = true →
            strContains (pyLower s) "long" = false → strContains (pyLower s) "short" = true →
            extract_bot_id s = some "doge_short_v1")
        ∧ (strContains (pyLower s) "btc" = false → strContains (pyLower s) "doge" = true →
            strContains (pyLower s) "long" = false → strContains (pyLower s) "short" = false →
            extract_bot_id s = none)
        ∧ (strContains (pyLower s) "btc" = false → strContains (pyLower s) "doge" = false →
            extract_bot_id s = none)))
    ∧ (strContains s "mm_optimized_15m" = false →
        strContains s "mm_optimized_1h" = false →
        (strContains s "bot_v1"
          || (strContains (pyLower s) "python"
              && (strContains (pyLower s) "long" || strContains (pyLower s) "short"))) = false →
        strContains (pyLower s) "hummingbot" = true → extract_bot_id s = some "hummingbot")
    ∧ (strContains s "mm_optimized_15m" = false →
        strContains s "mm_optimized_1h" = false →
        (strContains s "bot_v1"
          || (strContains (pyLower s) "python"
              && (strContains (pyLower s) "long" || strContains (pyLower s) "short"))) = false →
        strContains (pyLower s) "hummingbot" = false → extract_bot_id s = none) := by
  refine ⟨?_, ?_, fun h1 h2 h3 => ⟨?_, ?_, ?_, ?_, ?_, ?_, ?_⟩, ?_, ?_⟩ <;> intros <;>
    simp_all [extract_bot_id]

/-- Witness for the amended C8 theorem at a concrete command line. -/
theorem extract_bot_id_first_guard_wins_witness :
    extract_bot_id "run mm_optimized_15m.py" = some "mm_15m" :=
  (extract_bot_id_first_guard_wins "run mm_optimized_15m.py").1 (by rfl)

/-- Witness for C7 at a concrete previous document and new content: the
mid-write state with a partial temporary file. -/
theorem write_target_always_whole_witness :
    (({ target := some ['x'], temp := some ['a'] } : FSView).target
        = ({ target := some ['x'], temp := none } : FSView).target
      ∨ ({ target := some ['x'], temp := some ['a'] } : FSView).target = some ['a', 'b'])
    ∧ ({ target := some ['x'], temp := some ['a'] } : FSView) ∈
        write_states { target := some ['x'], temp := none } ['a', 'b'] :=
  ⟨(write_target_always_whole { target := some ['x'], temp := none } ['a', 'b']).1
    { target := some ['x'], temp := some ['a'] } (by decide), by decide⟩

/-! ## Claims about the state writer -/

/-- The fixed status-to-color mapping as a function of the (possibly absent)
`status` value of a record: a string status maps through the fixed table and
an absent or non-string status takes the `"yellow"` default. -/
def colorOfOpt : Option JValue → String
  | some (.str s) => color_map_get s
  | _ => "yellow"

theorem update_color_invariant (botId botName : String) (file : Option StateDoc)
    (updates : StateDoc) (now : String) (r : StateDoc)
    (h : update botId botName file updates now = some r) :
    lookupA r "status_color" = some (.str (colorOfOpt (lookupA r "status"))) := by
  simp only [update] at h
  split at h
  case _ c heq =>
    injection h with h
    subst h
    have h1 : lookupA (write_stamp (setKey (dictUpdate (base_doc botId botName file) updates)
        "status_color" (.str c)) now) "status_color" = some (.str c) := by
      rw [write_stamp, lookupA_setKey_ne _ _ _ _ (by decide), lookupA_setKey_self]
    have h2 : lookupA (write_stamp (setKey (dictUpdate (base_doc botId botName file) updates)
        "status_color" (.str c)) now) "status"
        = lookupA (dictUpdate (base_doc botId botName file) updates) "status" := by
      rw [write_stamp, lookupA_setKey_ne _ _ _ _ (by decide),
        lookupA_setKey_ne _ _ _ _ (by decide)]
    rw [h1, h2]
    cases hs : lookupA (dictUpdate (base_doc botId botName file) updates) "status" with
    | none =>
      rw [pyGet, hs] at heq
      simp only [Option.getD_none, statusColorOf, Option.some.injEq] at heq
      rw [← heq]
      rfl
    | some v =>
      rw [pyGet, hs] at heq
      cases v <;> simp_all [statusColorOf, colorOfOpt]
  case _ heq => exact Option.noConfusion h

/-- C5: `status_color` is a pure function of `status` under the fixed mapping
(running/active to green, initializing/paused to yellow, stopped/error to red,
offline to gray, any other status string to yellow): it holds of the record
persisted and returned by every `update` call — even when the caller supplies
a `status_color` value — and of every derived setter, and of every state file
written by the reconciler auto-fix. -/
theorem status_color_pure_function :
    (∀ botId botName file updates now r,
        update botId botName file updates now = some r →
        lookupA r "status_color" = some (.str (colorOfOpt (lookupA r "status"))))
    ∧ (∀ botId botName file extra now r,
        set_running botId botName file extra now = some r →
        lookupA r "status_color" = some (.str (colorOfOpt (lookupA r "status"))))
    ∧ (∀ botId botName file msg now r,
        set_error botId botName file msg now = some r →
        lookupA r "status_color" = some (.str (colorOfOpt (lookupA r "status"))))
    ∧ (∀ botId botName file now r,
        set_paused botId botName file now = some r →
        lookupA r "status_color" = some (.str (colorOfOpt (lookupA r "status"))))
    ∧ (∀ botId botName file now r,
        set_stopped botId botName file now = some r →
        lookupA r "status_color" = some (.str (colorOfOpt (lookupA r "status"))))
    ∧ (∀ botId botName file side size entry now r,
        update_position botId botName file side size entry now = some r →
        lookupA r "status_color" = some (.str (colorOfOpt (lookupA r "status"))))
    ∧ (∀ botId p now, lookupA (create_state botId p now) "status_color"
        = some (.str (colorOfOpt (lookupA (create_state botId p now) "status"))))
    ∧ (∀ st now, lookupA (stopped_doc st now) "status_color"
        = some (.str (colorOfOpt (lookupA (stopped_doc st now) "status")))) := by
  refine ⟨fun a b f u n r h => update_color_invariant a b f u n r h,
    fun a b f e n r h => update_color_invariant a b f _ n r h,
    fun a b f m n r h => update_color_invariant a b f _ n r h,
    fun a b f n r h => update_color_invariant a b f _ n r h,
    fun a b f n r h => update_color_invariant a b f _ n r h,
    fun a b f sd sz e n r h => update_color_invariant a b f _ n r h,
    fun a p n => rfl, fun st n => ?_⟩
  have h1 : lookupA (stopped_doc st n) "status_color" = some (.str "red") := by
    rw [stopped_doc, lookupA_setKey_ne _ _ _ _ (by decide),
      lookupA_setKey_ne _ _ _ _ (by decide), lookupA_setKey_self]
  have h2 : lookupA (stopped_doc st n) "status" = some (.str "stopped") := by
    rw [stopped_doc, lookupA_setKey_ne _ _ _ _ (by decide),
      lookupA_setKey_ne _ _ _ _ (by decide), lookupA_setKey_ne _ _ _ _ (by decide),
      lookupA_setKey_self]
  rw [h1, h2]
  rfl

/-- Witness for C5 at a concrete call: a fresh default record updated with an
explicit (ignored) caller-supplied `status_color`. -/
theorem status_color_pure_function_witness :
    lookupA (write_stamp (setKey (setKey (default_state "b" "b") "status_color"
        (.str "purple")) "status_color" (.str "yellow")) "t") "status_color"
      = some (.str (colorOfOpt (lookupA (write_stamp (setKey (setKey (default_state "b" "b")
          "status_color" (.str "purple")) "status_color" (.str "yellow")) "t") "status"))) :=
  status_color_pure_function.1 "b" "b" none [("status_color", .str "purple")] "t" _ (by rfl)

/-- `d.update(u)` with a one-entry dict is a single key assignment. -/
theorem dictUpdate_singleton {α : Type} (d : List (String × α)) (k : String) (v : α) :
    dictUpdate d [(k, v)] = setKey d k v := rfl

/-- C6: `update` supplying only the `status` field leaves unrelated fields
unchanged: any key other than `status`, `status_color` and `last_update`
keeps the value it had in the existing record (in particular `pnl_total`,
`pnl_24h`, `trades_total`, `trades_24h`, `position` and `last_error`). -/
theorem update_only_status_preserves_fields
    (botId botName : String) (cur : StateDoc) (s now : String) (r : StateDoc)
    (hnd : (cur.map Prod.fst).Nodup)
    (h : update botId botName (some cur) [("status", .str s)] now = some r)
    (k : String) (hk1 : k ≠ "status") (hk2 : k ≠ "status_color") (hk3 : k ≠ "last_update")
    (v : JValue) (hv : lookupA cur k = some v) :
    lookupA r k = some v := by
  simp only [update, base_doc] at h
  split at h
  case _ c heq =>
    injection h with h
    subst h
    rw [write_stamp, lookupA_setKey_ne _ _ _ _ (Ne.symm hk3),
      lookupA_setKey_ne _ _ _ _ (Ne.symm hk2), dictUpdate_singleton,
      lookupA_setKey_ne _ _ _ _ (Ne.symm hk1)]
    exact lookupA_dictUpdate_of_some hnd hv _
  case _ heq => exact Option.noConfusion h

/-- Witness for C6 at a concrete record and update. -/
theorem update_only_status_preserves_fields_witness :
    lookupA (write_stamp (setKey (setKey (setKey (default_state "b" "n") "pnl_total"
        (.num 7)) "status" (.str "stopped")) "status_color" (.str "red")) "t")
      "pnl_total" = some (.num 7) :=
  update_only_status_preserves_fields "b" "n" [("pnl_total", .num 7)] "stopped" "t" _
    (by decide) (by rfl) "pnl_total" (by decide) (by decide) (by decide) (.num 7) (by rfl)

/-- C4: `record_trade` is additive relative to the current on-disk state:
each call increments `trades_total` and `trades_24h` by one, adds the given
pnl to `pnl_total` and `pnl_24h`, and sets `last_trade` (stamping
`last_update`); in particular two calls with pnl 5.0 and 3.0 on a freshly
created bot yield `trades_total = 2` and `pnl_total = 8.0`. -/
theorem record_trade_additive :
    (∀ botId botName cur pnl side now t t24 p p24 r,
        pyGetNum cur "trades_total" = some t →
        pyGetNum cur "trades_24h" = some t24 →
        pyGetNum cur "pnl_total" = some p →
        pyGetNum cur "pnl_24h" = some p24 →
        record_trade botId botName (some cur) pnl side now = some r →
        lookupA r "trades_total" = some (.num (t + 1))
        ∧ lookupA r "trades_24h" = some (.num (t24 + 1))
        ∧ lookupA r "pnl_total" = some (.num (p + pnl))
        ∧ lookupA r "pnl_24h" = some (.num (p24 + pnl))
        ∧ lookupA r "last_trade"
            = some (.obj [("time", .str now), ("pnl", .num pnl), ("side", .str side)])
        ∧ lookupA r "last_update" = some (.str now))
    ∧ (∀ botId botName now0 now1 now2 side1 side2 r1 r2,
        record_trade botId botName (some (bot_init botId none none now0)) 5 side1 now1
          = some r1 →
        record_trade botId botName (some r1) 3 side2 now2 = some r2 →
        lookupA r2 "trades_total" = some (.num 2)
        ∧ lookupA r2 "pnl_total" = some (.num 8)) := by
  have part1 : ∀ botId botName cur pnl side now t t24 p p24 r,
      pyGetNum cur "trades_total" = some t →
      pyGetNum cur "trades_24h" = some t24 →
      pyGetNum cur "pnl_total" = some p →
      pyGetNum cur "pnl_24h" = some p24 →
      record_trade botId botName (some cur) pnl side now = some r →
      lookupA r "trades_total" = some (.num (t + 1))
      ∧ lookupA r "trades_24h" = some (.num (t24 + 1))
      ∧ lookupA r "pnl_total" = some (.num (p + pnl))
      ∧ lookupA r "pnl_24h" = some (.num (p24 + pnl))
      ∧ lookupA r "last_trade"
          = some (.obj [("time", .str now), ("pnl", .num pnl), ("side", .str side)])
      ∧ lookupA r "last_update" = some (.str now) := by
    intro botId botName cur pnl side now t t24 p p24 r h1 h2 h3 h4 h5
    simp only [record_trade, Option.getD_some, h1, h2, h3, h4] at h5
    injection h5 with h5
    subst h5
    refine ⟨?_, ?_, ?_, ?_, ?_, ?_⟩
    · rw [write_stamp, lookupA_setKey_ne _ _ _ _ (by decide),
        lookupA_setKey_ne _ _ _ _ (by decide), lookupA_setKey_ne _ _ _ _ (by decide),
        lookupA_setKey_ne _ _ _ _ (by decide), lookupA_setKey_ne _ _ _ _ (by decide),
        lookupA_setKey_self]
    · rw [write_stamp, lookupA_setKey_ne _ _ _ _ (by decide),
        lookupA_setKey_ne _ _ _ _ (by decide), lookupA_setKey_ne _ _ _ _ (by decide),
        lookupA_setKey_ne _ _ _ _ (by decide), lookupA_setKey_self]
    · rw [write_stamp, lookupA_setKey_ne _ _ _ _ (by decide),
        lookupA_setKey_ne _ _ _ _ (by decide), lookupA_setKey_ne _ _ _ _ (by decide),
        lookupA_setKey_self]
    · rw [write_stamp, lookupA_setKey_ne _ _ _ _ (by decide),
        lookupA_setKey_ne _ _ _ _ (by decide), lookupA_setKey_self]
    · rw [write_stamp, lookupA_setKey_ne _ _ _ _ (by decide), lookupA_setKey_self]
    · rw [write_stamp, lookupA_setKey_self]
  refine ⟨part1, ?_⟩
  intro botId botName now0 now1 now2 side1 side2 r1 r2 h1 h2
  have A := part1 botId botName (bot_init botId none none now0) 5 side1 now1 0 0 0 0 r1
    rfl rfl rfl rfl h1
  have ht : pyGetNum r1 "trades_total" = some 1 := by
    rw [pyGetNum, A.1]
    norm_num
  have ht24 : pyGetNum r1 "trades_24h" = some 1 := by
    rw [pyGetNum, A.2.1]
    norm_num
  have hp : pyGetNum r1 "pnl_total" = some 5 := by
    rw [pyGetNum, A.2.2.1]
    norm_num
  have hp24 : pyGetNum r1 "pnl_24h" = some 5 := by
    rw [pyGetNum, A.2.2.2.1]
    norm_num
  have B := part1 botId botName r1 3 side2 now2 1 1 5 5 r2 ht ht24 hp hp24 h2
  exact ⟨B.1.trans (by norm_num), B.2.2.1.trans (by norm_num)⟩

/-- The document after the first `record_trade` call of the C4 witness. -/
def trade_doc_1 : StateDoc :=
  (record_trade "b" "b" (some (bot_init "b" none none "t0")) 5 "buy" "t1").getD []

/-- The document after the second `record_trade` call of the C4 witness. -/
def trade_doc_2 : StateDoc :=
  (record_trade "b" "b" (some trade_doc_1) 3 "sell" "t2").getD []

/-- Witness for C4: two concrete trades on a freshly created bot. -/
theorem record_trade_additive_witness :
    lookupA trade_doc_2 "trades_total" = some (.num 2)
    ∧ lookupA trade_doc_2 "pnl_total" = some (.num 8) :=
  record_trade_additive.2 "b" "b" "t0" "t1" "t2" "buy" "sell" trade_doc_1 trade_doc_2
    (by rfl) (by rfl)

/-! ## Characterizations of the two reconcile loops -/

theorem proc_loop_ms (af : Bool) (fm : List (String × FileSummary)) (now : String) :
    ∀ (l : List (String × ProcObs)) (disk : Disk),
    (proc_loop af fm now l disk).1
      = (l.filter (fun e => !(lookupA fm e.1).isSome)).map
          (fun e => ⟨e.1, "running_but_no_state_file", some e.2, none⟩) := by
  intro l
  induction l with
  | nil => intro disk; rfl
  | cons hd tl ih =>
    intro disk
    obtain ⟨a, b⟩ := hd
    cases h : lookupA fm a <;> simp [proc_loop, h, ih]

theorem proc_loop_fx (af : Bool) (fm : List (String × FileSummary)) (now : String) :
    ∀ (l : List (String × ProcObs)) (disk : Disk),
    (proc_loop af fm now l disk).2.1
      = if af then (l.filter (fun e => !(lookupA fm e.1).isSome)).map Prod.fst else [] := by
  intro l
  induction l with
  | nil => intro disk; cases af <;> rfl
  | cons hd tl ih =>
    intro disk
    obtain ⟨a, b⟩ := hd
    cases h : lookupA fm a <;> cases af <;> simp [proc_loop, h, ih]

theorem file_loop_ms (af : Bool) (pm : List (String × ProcObs)) (now : String) :
    ∀ (l : List (String × FileSummary)) (disk : Disk),
    (file_loop af pm now l disk).1
      = (l.filter (fun e => !(lookupA pm e.1).isSome && is_running_status e.2.status)).map
          (fun e => ⟨e.1, "state_says_running_but_process_missing", none, some e.2⟩) := by
  intro l
  induction l with
  | nil => intro disk; rfl
  | cons hd tl ih =>
    intro disk
    obtain ⟨a, b⟩ := hd
    cases h1 : lookupA pm a <;> cases h2 : is_running_status b.status <;>
      simp [file_loop, h1, h2, ih]

theorem file_loop_fx (af : Bool) (pm : List (String × ProcObs)) (now : String) :
    ∀ (l : List (String × FileSummary)) (disk : Disk),
    (file_loop af pm now l disk).2.1
      = if af then
          (l.filter (fun e => !(lookupA pm e.1).isSome && is_running_status e.2.status)).map
            Prod.fst
        else [] := by
  intro l
  induction l with
  | nil => intro disk; cases af <;> rfl
  | cons hd tl ih =>
    intro disk
    obtain ⟨a, b⟩ := hd
    cases h1 : lookupA pm a <;> cases h2 : is_running_status b.status <;>
      cases af <;> simp [file_loop, h1, h2, ih]

theorem reconcile_ms_eq (af : Bool) (pm : List (String × ProcObs))
    (fm : List (String × FileSummary)) (disk : Disk) (now : String) :
    (reconcile af pm fm disk now).1.mismatches
      = (pm.filter (fun e => !(lookupA fm e.1).isSome)).map
          (fun e => ⟨e.1, "running_but_no_state_file", some e.2, none⟩)
        ++ (fm.filter (fun e => !(lookupA pm e.1).isSome && is_running_status e.2.status)).map
            (fun e => ⟨e.1, "state_says_running_but_process_missing", none, some e.2⟩) := by
  show (proc_loop af fm now pm disk).1 ++ (file_loop af pm now fm _).1 = _
  rw [proc_loop_ms, file_loop_ms]

/-! ## Claim about the healthy flag -/

/-- C3: for every reconciliation run, the report is healthy iff its mismatch
list is empty, and performing fixes changes neither the mismatch list nor the
flag: auto-fix on and off produce the same mismatches and the same flag. -/
theorem reconcile_healthy_iff_no_mismatches (af : Bool) (pm : List (String × ProcObs))
    (fm : List (String × FileSummary)) (disk : Disk) (now : String) :
    ((reconcile af pm fm disk now).1.healthy = true
      ↔ (reconcile af pm fm disk now).1.mismatches = [])
    ∧ (reconcile true pm fm disk now).1.mismatches
        = (reconcile false pm fm disk now).1.mismatches
    ∧ (reconcile true pm fm disk now).1.healthy
        = (reconcile false pm fm disk now).1.healthy := by
  have hh : ∀ b : Bool, (reconcile b pm fm disk now).1.healthy
      = (reconcile b pm fm disk now).1.mismatches.isEmpty := fun b => rfl
  have hm := reconcile_ms_eq true pm fm disk now
  have hm' := reconcile_ms_eq false pm fm disk now
  refine ⟨?_, hm.trans hm'.symm, ?_⟩
  · rw [hh, List.isEmpty_iff]
  · rw [hh, hh, hm, hm']

/-! ## Counting helpers for the classification claim -/

theorem countP_map_fn {α β : Type} (f : α → β) (p : β → Bool) :
    ∀ l : List α, (l.map f).countP p = l.countP (fun a => p (f a)) := by
  intro l
  induction l with
  | nil => rfl
  | cons a tl ih => simp [List.countP_cons, ih]

theorem countP_filter_fn {α : Type} (q p : α → Bool) :
    ∀ l : List α, (l.filter q).countP p = l.countP (fun a => p a && q a) := by
  intro l
  induction l with
  | nil => rfl
  | cons a tl ih =>
    cases hq : q a <;> simp [List.filter_cons, hq, List.countP_cons, ih]

theorem countP_congr_fn {α : Type} {p q : α → Bool} :
    ∀ l : List α, (∀ a ∈ l, p a = q a) → l.countP p = l.countP q := by
  intro l
  induction l with
  | nil => intro _; rfl
  | cons a tl ih =>
    intro h
    simp [List.countP_cons, h a (List.mem_cons_self a tl),
      ih (fun x hx => h x (List.mem_cons_of_mem a hx))]

theorem countP_key_none {α : Type} {l : List (String × α)} {id : String}
    (h : lookupA l id = none) (q : String × α → Bool) :
    l.countP (fun e => e.1 == id && q e) = 0 := by
  induction l with
  | nil => rfl
  | cons hd tl ih =>
    obtain ⟨a, b⟩ := hd
    by_cases ha : a = id
    · subst ha
      simp [lookupA] at h
    · simp only [lookupA, if_neg ha] at h
      have hb : ((a, b).1 == id) = false := by simp [ha]
      simp [List.countP_cons, hb, ih h]

theorem countP_key_some {α : Type} {l : List (String × α)} {id : String} {v : α}
    (hnd : (l.map Prod.fst).Nodup) (h : lookupA l id = some v) (q : String × α → Bool) :
    l.countP (fun e => e.1 == id && q e) = if q (id, v) then 1 else 0 := by
  induction l with
  | nil => simp [lookupA] at h
  | cons hd tl ih =>
    obtain ⟨a, b⟩ := hd
    rw [List.map_cons, List.nodup_cons] at hnd
    by_cases ha : a = id
    · subst ha
      have hb : b = v := by simpa [lookupA] using h
      subst hb
      have htl : lookupA tl a = none := lookupA_eq_none_of_not_mem_keys hnd.1
      simp [List.countP_cons, countP_key_none htl q]
    · simp only [lookupA, if_neg ha] at h
      have hb : ((a, b).1 == id) = false := by simp [ha]
      simp [List.countP_cons, hb, ih hnd.2 h]

theorem reconcile_countP_kind (af : Bool) (pm : List (String × ProcObs))
    (fm : List (String × FileSummary)) (disk : Disk) (now : String) (id K : String) :
    (reconcile af pm fm disk now).1.mismatches.countP
        (fun m => m.bot_id == id && m.issue == K)
      = pm.countP (fun e => e.1 == id
          && (("running_but_no_state_file" == K) && !(lookupA fm e.1).isSome))
      + fm.countP (fun e => e.1 == id
          && (("state_says_running_but_process_missing" == K)
              && (!(lookupA pm e.1).isSome && is_running_status e.2.status))) := by
  rw [reconcile_ms_eq, List.countP_append]
  congr 1
  · rw [countP_map_fn, countP_filter_fn]
    exact countP_congr_fn pm (by intro e _; simp [Bool.and_assoc])
  · rw [countP_map_fn, countP_filter_fn]
    exact countP_congr_fn fm (by intro e _; simp [Bool.and_assoc])

theorem reconcile_countP_id (af : Bool) (pm : List (String × ProcObs))
    (fm : List (String × FileSummary)) (disk : Disk) (now : String) (id : String) :
    (reconcile af pm fm disk now).1.mismatches.countP (fun m => m.bot_id == id)
      = pm.countP (fun e => e.1 == id && !(lookupA fm e.1).isSome)
      + fm.countP (fun e => e.1 == id
          && (!(lookupA pm e.1).isSome && is_running_status e.2.status)) := by
  rw [reconcile_ms_eq, List.countP_append]
  congr 1
  · rw [countP_map_fn, countP_filter_fn]
  · rw [countP_map_fn, countP_filter_fn]

/-- C1: classification of mismatches, for every process map and file map with
the dict property (unique keys).  A bot id only in the process map yields
exactly one mismatch, of kind `running_but_no_state_file`; a bot id only in
the file map yields exactly one mismatch, of kind
`state_says_running_but_process_missing`, when and only when its file status
is `running` or `active`; a bot id in both maps yields no mismatch. -/
theorem reconcile_classifies_mismatches (af : Bool) (pm : List (String × ProcObs))
    (fm : List (String × FileSummary)) (disk : Disk) (now : String) (id : String)
    (hpm : (pm.map Prod.fst).Nodup) (hfm : (fm.map Prod.fst).Nodup) :
    (∀ p, lookupA pm id = some p → lookupA fm id = none →
      ((reconcile af pm fm disk now).1.mismatches.countP
          (fun m => m.bot_id == id && m.issue == "running_but_no_state_file") = 1
        ∧ (reconcile af pm fm disk now).1.mismatches.countP
            (fun m => m.bot_id == id) = 1))
    ∧ (∀ f, lookupA fm id = some f → lookupA pm id = none →
        (is_running_status f.status = true →
          ((reconcile af pm fm disk now).1.mismatches.countP
              (fun m => m.bot_id == id
                && m.issue == "state_says_running_but_process_missing") = 1
            ∧ (reconcile af pm fm disk now).1.mismatches.countP
                (fun m => m.bot_id == id) = 1))
        ∧ (is_running_status f.status = false →
            (reconcile af pm fm disk now).1.mismatches.countP
              (fun m => m.bot_id == id) = 0))
    ∧ ((lookupA pm id).isSome = true → (lookupA fm id).isSome = true →
        (reconcile af pm fm disk now).1.mismatches.countP (fun m => m.bot_id == id) = 0) := by
  refine ⟨?_, ?_, ?_⟩
  · intro p hp hf
    constructor
    · rw [reconcile_countP_kind, countP_key_some hpm hp, countP_key_none hf]
      simp [hf]
    · rw [reconcile_countP_id, countP_key_some hpm hp, countP_key_none hf]
      simp [hf]
  · intro f hf hp
    refine ⟨fun hrun => ⟨?_, ?_⟩, fun hstop => ?_⟩
    · rw [reconcile_countP_kind, countP_key_none hp, countP_key_some hfm hf]
      simp [hp, hrun]
    · rw [reconcile_countP_id, countP_key_none hp, countP_key_some hfm hf]
      simp [hp, hrun]
    · rw [reconcile_countP_id, countP_key_none hp, countP_key_some hfm hf]
      simp [hstop]
  · intro hp hf
    obtain ⟨p, hp⟩ := Option.isSome_iff_exists.mp hp
    obtain ⟨f, hf⟩ := Option.isSome_iff_exists.mp hf
    rw [reconcile_countP_id, countP_key_some hpm hp, countP_key_some hfm hf]
    simp [hp, hf]

/-- A concrete process observation for the reconciler witnesses. -/
def pobs0 : ProcObs :=
  { pid := some 1, started_at := some "s", cmdline := "cmd" }

/-- A concrete one-process map for the reconciler witnesses. -/
def pm0 : List (String × ProcObs) := [("A", pobs0)]

/-- A concrete two-file map for the reconciler witnesses: `B` claims to run,
`C` is stopped. -/
def fm0 : List (String × FileSummary) :=
  [("B", { status := .str "running", last_update := .null }),
   ("C", { status := .str "stopped", last_update := .null })]

/-- Witness for C1 at the concrete maps: the process `A` without a state file
yields exactly one mismatch. -/
theorem reconcile_classifies_mismatches_witness :
    (reconcile false pm0 fm0 [] "now").1.mismatches.countP
        (fun m => m.bot_id == "A" && m.issue == "running_but_no_state_file") = 1
    ∧ (reconcile false pm0 fm0 [] "now").1.mismatches.countP
        (fun m => m.bot_id == "A") = 1 :=
  (reconcile_classifies_mismatches false pm0 fm0 [] "now" "A" (by decide) (by decide)).1
    pobs0 (by rfl) (by rfl)

/-! ## Disk effects of the reconcile loops -/

theorem lookupA_update_stopped_ne (disk : Disk) (j id now : String) (h : j ≠ id) :
    lookupA (update_state_to_stopped disk j now) id = lookupA disk id := by
  unfold update_state_to_stopped
  split
  · exact lookupA_setKey_ne _ _ _ _ h
  · rfl

theorem proc_loop_disk_preserve (af : Bool) (fm : List (String × FileSummary)) (now : String) :
    ∀ (l : List (String × ProcObs)) (disk : Disk) (id : String),
    (lookupA fm id).isSome = true →
    lookupA (proc_loop af fm now l disk).2.2 id = lookupA disk id := by
  intro l
  induction l with
  | nil => intro disk id _; rfl
  | cons hd tl ih =>
    intro disk id h
    obtain ⟨a, b⟩ := hd
    cases hfa : lookupA fm a with
    | some f =>
      have step : proc_loop af fm now ((a, b) :: tl) disk = proc_loop af fm now tl disk := by
        simp [proc_loop, hfa]
      rw [step]
      exact ih disk id h
    | none =>
      have ha : a ≠ id := by
        intro e
        subst e
        rw [hfa] at h
        exact Bool.noConfusion h
      have step : (proc_loop af fm now ((a, b) :: tl) disk).2.2
          = (proc_loop af fm now tl
              (if af then setKey disk a (some (create_state a b now)) else disk)).2.2 := by
        simp [proc_loop, hfa]
      rw [step, ih _ id h]
      cases af
      · rfl
      · simp only [if_true]
        exact lookupA_setKey_ne _ _ _ _ ha

theorem proc_loop_disk_not_mem (af : Bool) (fm : List (String × FileSummary)) (now : String) :
    ∀ (l : List (String × ProcObs)) (disk : Disk) (id : String),
    id ∉ l.map Prod.fst →
    lookupA (proc_loop af fm now l disk).2.2 id = lookupA disk id := by
  intro l
  induction l with
  | nil => intro disk id _; rfl
  | cons hd tl ih =>
    intro disk id h
    obtain ⟨a, b⟩ := hd
    rw [List.map_cons, List.mem_cons] at h
    push_neg at h
    have ha : a ≠ id := fun e => h.1 e.symm
    cases hfa : lookupA fm a with
    | some f =>
      have step : proc_loop af fm now ((a, b) :: tl) disk = proc_loop af fm now tl disk := by
        simp [proc_loop, hfa]
      rw [step]
      exact ih disk id h.2
    | none =>
      have step : (proc_loop af fm now ((a, b) :: tl) disk).2.2
          = (proc_loop af fm now tl
              (if af then setKey disk a (some (create_state a b now)) else disk)).2.2 := by
        simp [proc_loop, hfa]
      rw [step, ih _ id h.2]
      cases af
      · rfl
      · simp only [if_true]
        exact lookupA_setKey_ne _ _ _ _ ha

theorem proc_loop_disk_mem (fm : List (String × FileSummary)) (now : String) :
    ∀ (l : List (String × ProcObs)) (disk : Disk) (id : String) (p : ProcObs),
    (l.map Prod.fst).Nodup → (id, p) ∈ l → lookupA fm id = none →
    lookupA (proc_loop true fm now l disk).2.2 id = some (some (create_state id p now)) := by
  intro l
  induction l with
  | nil =>
    intro disk id p _ hm _
    simp at hm
  | cons hd tl ih =>
    intro disk id p hnd hm hf
    obtain ⟨a, b⟩ := hd
    rw [List.map_cons, List.nodup_cons] at hnd
    rcases List.mem_cons.mp hm with h1 | h1
    · obtain ⟨rfl, rfl⟩ := Prod.mk.injEq .. ▸ h1
      have step : (proc_loop true fm now ((id, p) :: tl) disk).2.2
          = (proc_loop true fm now tl (setKey disk id (some (create_state id p now)))).2.2 := by
        simp [proc_loop, hf]
      rw [step, proc_loop_disk_not_mem true fm now tl _ id hnd.1, lookupA_setKey_self]
    · have ha : a ≠ id := by
        intro e
        subst e
        exact hnd.1 (List.mem_map.mpr ⟨(a, p), h1, rfl⟩)
      cases hfa : lookupA fm a with
      | some f =>
        have step : proc_loop true fm now ((a, b) :: tl) disk
            = proc_loop true fm now tl disk := by
          simp [proc_loop, hfa]
        rw [step]
        exact ih disk id p hnd.2 h1 hf
      | none =>
        have step : (proc_loop true fm now ((a, b) :: tl) disk).2.2
            = (proc_loop true fm now tl (setKey disk a (some (create_state a b now)))).2.2 := by
          simp [proc_loop, hfa]
        rw [step]
        exact ih _ id p hnd.2 h1 hf

theorem file_loop_disk_not_mem (af : Bool) (pm : List (String × ProcObs)) (now : String) :
    ∀ (l : List (String × FileSummary)) (disk : Disk) (id : String),
    id ∉ l.map Prod.fst →
    lookupA (file_loop af pm now l disk).2.2 id = lookupA disk id := by
  intro l
  induction l with
  | nil => intro disk id _; rfl
  | cons hd tl ih =>
    intro disk id h
    obtain ⟨a, b⟩ := hd
    rw [List.map_cons, List.mem_cons] at h
    push_neg at h
    have ha : a ≠ id := fun e => h.1 e.symm
    cases hpa : lookupA pm a with
    | some p =>
      have step : file_loop af pm now ((a, b) :: tl) disk = file_loop af pm now tl disk := by
        simp [file_loop, hpa]
      rw [step]
      exact ih disk id h.2
    | none =>
      cases hrun : is_running_status b.status with
      | false =>
        have step : file_loop af pm now ((a, b) :: tl) disk
            = file_loop af pm now tl disk := by
          simp [file_loop, hpa, hrun]
        rw [step]
        exact ih disk id h.2
      | true =>
        have step : (file_loop af pm now ((a, b) :: tl) disk).2.2
            = (file_loop af pm now tl
                (if af then update_state_to_stopped disk a now else disk)).2.2 := by
          simp [file_loop, hpa, hrun]
        rw [step, ih _ id h.2]
        cases af
        · rfl
        · simp only [if_true]
          exact lookupA_update_stopped_ne _ _ _ _ ha

theorem file_loop_disk_preserve (af : Bool) (pm : List (String × ProcObs)) (now : String) :
    ∀ (l : List (String × FileSummary)) (disk : Disk) (id : String),
    (lookupA pm id).isSome = true →
    lookupA (file_loop af pm now l disk).2.2 id = lookupA disk id := by
  intro l
  induction l with
  | nil => intro disk id _; rfl
  | cons hd tl ih =>
    intro disk id h
    obtain ⟨a, b⟩ := hd
    cases hpa : lookupA pm a with
    | some p =>
      have step : file_loop af pm now ((a, b) :: tl) disk = file_loop af pm now tl disk := by
        simp [file_loop, hpa]
      rw [step]
      exact ih disk id h
    | none =>
      have ha : a ≠ id := by
        intro e
        subst e
        rw [hpa] at h
        exact Bool.noConfusion h
      cases hrun : is_running_status b.status with
      | false =>
        have step : file_loop af pm now ((a, b) :: tl) disk
            = file_loop af pm now tl disk := by
          simp [file_loop, hpa, hrun]
        rw [step]
        exact ih disk id h
      | true =>
        have step : (file_loop af pm now ((a, b) :: tl) disk).2.2
            = (file_loop af pm now tl
                (if af then update_state_to_stopped disk a now else disk)).2.2 := by
          simp [file_loop, hpa, hrun]
        rw [step, ih _ id h]
        cases af
        · rfl
        · simp only [if_true]
          exact lookupA_update_stopped_ne _ _ _ _ ha

theorem file_loop_disk_mem (pm : List (String × ProcObs)) (now : String) :
    ∀ (l : List (String × FileSummary)) (disk : Disk) (id : String) (f : FileSummary)
      (st : StateDoc),
    (l.map Prod.fst).Nodup → (id, f) ∈ l → lookupA pm id = none →
    is_running_status f.status = true → lookupA disk id = some (some st) →
    lookupA (file_loop true pm now l disk).2.2 id = some (some (stopped_doc st now)) := by
  intro l
  induction l with
  | nil =>
    intro disk id f st _ hm _ _ _
    simp at hm
  | cons hd tl ih =>
    intro disk id f st hnd hm hp hrun hdisk
    obtain ⟨a, b⟩ := hd
    rw [List.map_cons, List.nodup_cons] at hnd
    rcases List.mem_cons.mp hm with h1 | h1
    · obtain ⟨rfl, rfl⟩ := Prod.mk.injEq .. ▸ h1
      have hstep : update_state_to_stopped disk id now
          = setKey disk id (some (stopped_doc st now)) := by
        simp [update_state_to_stopped, hdisk]
      have step : (file_loop true pm now ((id, f) :: tl) disk).2.2
          = (file_loop true pm now tl (update_state_to_stopped disk id now)).2.2 := by
        simp [file_loop, hp, hrun]
      rw [step, file_loop_disk_not_mem true pm now tl _ id hnd.1, hstep, lookupA_setKey_self]
    · have ha : a ≠ id := by
        intro e
        subst e
        exact hnd.1 (List.mem_map.mpr ⟨(a, f), h1, rfl⟩)
      cases hpa : lookupA pm a with
      | some p =>
        have step : file_loop true pm now ((a, b) :: tl) disk
            = file_loop true pm now tl disk := by
          simp [file_loop, hpa]
        rw [step]
        exact ih disk id f st hnd.2 h1 hp hrun hdisk
      | none =>
        cases hbrun : is_running_status b.status with
        | false =>
          have step : file_loop true pm now ((a, b) :: tl) disk
              = file_loop true pm now tl disk := by
            simp [file_loop, hpa, hbrun]
          rw [step]
          exact ih disk id f st hnd.2 h1 hp hrun hdisk
        | true =>
          have step : (file_loop true pm now ((a, b) :: tl) disk).2.2
              = (file_loop true pm now tl (update_state_to_stopped disk a now)).2.2 := by
            simp [file_loop, hpa, hbrun]
          rw [step]
          refine ih _ id f st hnd.2 h1 hp hrun ?_
          rw [lookupA_update_stopped_ne _ _ _ _ ha]
          exact hdisk

/-! ## Claim about auto-fix -/

/-- C2: in auto-fix mode, a bot id running with no state file gets a state
file with status `running` and status_color `green`; a bot id whose existing,
parseable state file says `running`/`active` with no matching process gets its
file rewritten to status `stopped` and status_color `red`; in both cases the
bot id appears in the report's fixed list. -/
theorem reconcile_autofix_repairs (pm : List (String × ProcObs))
    (fm : List (String × FileSummary)) (disk : Disk) (now : String) (id : String)
    (hpm : (pm.map Prod.fst).Nodup) (hfm : (fm.map Prod.fst).Nodup) :
    (∀ p, lookupA pm id = some p → lookupA fm id = none →
        lookupA (reconcile true pm fm disk now).2 id = some (some (create_state id p now))
      ∧ lookupA (create_state id p now) "status" = some (.str "running")
      ∧ lookupA (create_state id p now) "status_color" = some (.str "green")
      ∧ id ∈ (reconcile true pm fm disk now).1.fixed)
    ∧ (∀ f st, lookupA fm id = some f → lookupA pm id = none →
        is_running_status f.status = true → lookupA disk id = some (some st) →
        lookupA (reconcile true pm fm disk now).2 id = some (some (stopped_doc st now))
      ∧ lookupA (stopped_doc st now) "status" = some (.str "stopped")
      ∧ lookupA (stopped_doc st now) "status_color" = some (.str "red")
      ∧ id ∈ (reconcile true pm fm disk now).1.fixed) := by
  have hdisk2 : (reconcile true pm fm disk now).2
      = (file_loop true pm now fm (proc_loop true fm now pm disk).2.2).2.2 := rfl
  have hfx : (reconcile true pm fm disk now).1.fixed
      = (proc_loop true fm now pm disk).2.1
        ++ (file_loop true pm now fm (proc_loop true fm now pm disk).2.2).2.1 := rfl
  constructor
  · intro p hp hf
    refine ⟨?_, rfl, rfl, ?_⟩
    · rw [hdisk2, file_loop_disk_preserve true pm now fm _ id (by rw [hp]; rfl)]
      exact proc_loop_disk_mem fm now pm disk id p hpm (mem_of_lookupA_some hp) hf
    · rw [hfx]
      refine List.mem_append_left _ ?_
      rw [proc_loop_fx, if_pos rfl]
      exact List.mem_map.mpr ⟨(id, p),
        List.mem_filter.mpr ⟨mem_of_lookupA_some hp, by simp [hf]⟩, rfl⟩
  · intro f st hf hp hrun hdisk
    have hstatus : lookupA (stopped_doc st now) "status" = some (.str "stopped") := by
      rw [stopped_doc, lookupA_setKey_ne _ _ _ _ (by decide),
        lookupA_setKey_ne _ _ _ _ (by decide), lookupA_setKey_ne _ _ _ _ (by decide),
        lookupA_setKey_self]
    have hcolor : lookupA (stopped_doc st now) "status_color" = some (.str "red") := by
      rw [stopped_doc, lookupA_setKey_ne _ _ _ _ (by decide),
        lookupA_setKey_ne _ _ _ _ (by decide), lookupA_setKey_self]
    refine ⟨?_, hstatus, hcolor, ?_⟩
    · rw [hdisk2]
      refine file_loop_disk_mem pm now fm _ id f st hfm (mem_of_lookupA_some hf) hp hrun ?_
      rw [proc_loop_disk_preserve true fm now pm disk id (by rw [hf]; rfl)]
      exact hdisk
    · rw [hfx]
      refine List.mem_append_right _ ?_
      rw [file_loop_fx, if_pos rfl]
      exact List.mem_map.mpr ⟨(id, f),
        List.mem_filter.mpr ⟨mem_of_lookupA_some hf, by simp [hp, hrun]⟩, rfl⟩

/-- The concrete state directory for the C2 witness: parseable files for `B`
and `C`. -/
def disk0 : Disk :=
  [("B", some [("status", JValue.str "running")]),
   ("C", some [("status", JValue.str "stopped")])]

/-- Witness for C2 at the concrete maps and directory: auto-fix creates `A`'s
file and rewrites `B`'s file, and both ids appear in the fixed list. -/
theorem reconcile_autofix_repairs_witness :
    lookupA (reconcile true pm0 fm0 disk0 "now").2 "A"
        = some (some (create_state "A" pobs0 "now"))
    ∧ "A" ∈ (reconcile true pm0 fm0 disk0 "now").1.fixed
    ∧ lookupA (reconcile true pm0 fm0 disk0 "now").2 "B"
        = some (some (stopped_doc [("status", JValue.str "running")] "now"))
    ∧ "B" ∈ (reconcile true pm0 fm0 disk0 "now").1.fixed :=
  have hA := (reconcile_autofix_repairs pm0 fm0 disk0 "now" "A"
    (by decide) (by decide)).1 pobs0 (by rfl) (by rfl)
  have hB := (reconcile_autofix_repairs pm0 fm0 disk0 "now" "B"
    (by decide) (by decide)).2 { status := .str "running", last_update := .null }
    [("status", JValue.str "running")] (by rfl) (by rfl) (by rfl) (by rfl)
  ⟨hA.1, hA.2.2.2, hB.1, hB.2.2.2⟩
